import Mathlib

/-!
Verification of the playerctl core specification: the active-player
registry/stack with promotion and shift/unshift, the selection resolver,
the command dispatcher, and the format expression engine. The repository
ships the implementation in a systems language together with a Python test
suite; the definitions below are a shallow embedding of the specified core,
and the theorems settle the specified properties against it.
-/

namespace Playerctl

/-- Modelled from the spec: the playback status enumeration cached on a
player handle (Playing, Paused or Stopped). -/
inductive PlaybackStatus
  | Playing
  | Paused
  | Stopped
deriving DecidableEq

/-- Modelled from the spec: a typed metadata value, namespaced-key to a
string, list-of-string or integer value (an absent key simply has no entry
in the mapping). -/
inductive MetaValue
  | str (s : String)
  | strList (l : List String)
  | int (n : Int)
deriving DecidableEq

/-- Modelled from the spec: a PlayerHandle is a typed snapshot of one
player identity and its cached properties: instance id, playback status,
metadata mapping, volume and position (integer microseconds). -/
structure PlayerHandle where
  instanceId : String
  playbackStatus : PlaybackStatus
  metadata : List (String × MetaValue)
  volume : Rat
  position : Int
deriving DecidableEq

/-- Modelled from the spec: look a namespaced key up in a metadata
mapping. -/
def lookupMeta (m : List (String × MetaValue)) (k : String) : Option MetaValue :=
  (m.find? (fun p => p.1 == k)).map (fun p => p.2)

/-- Modelled from the spec: the externally visible ordered list of
instance ids of a player stack. -/
def snapshot (stack : List PlayerHandle) : List String :=
  stack.map (fun h => h.instanceId)

/-- Modelled from the spec: a change-notification payload carries the new
ordered list of instance ids when the visible ordering changed. -/
abbrev Notification := Option (List String)

/-- Modelled from the spec: on_appear inserts the new handle at the front
of the stack and, since the visible ordered list changed, emits one change
notification carrying the new ordered list. -/
def onAppear (h : PlayerHandle) (stack : List PlayerHandle) :
    List PlayerHandle × Notification :=
  (h :: stack, some (snapshot (h :: stack)))

/-- Modelled from the spec: on_vanish removes the handle and does not
otherwise reorder the remaining entries; a notification is emitted exactly
when the visible list changed. -/
def onVanish (i : String) (stack : List PlayerHandle) :
    List PlayerHandle × Notification :=
  let remaining := stack.filter (fun h => !(h.instanceId == i))
  (remaining,
    if snapshot remaining == snapshot stack then none else some (snapshot remaining))

/-- Modelled from the spec: the changed-properties payload of one
property-changed bus event; a field that is none was not carried by the
event. -/
structure PropertyChanges where
  playbackStatus : Option PlaybackStatus
  metadata : Option (List (String × MetaValue))
  volume : Option Rat
  position : Option Int
deriving DecidableEq

/-- Modelled from the spec: refresh the cached fields of a handle from a
changed-properties payload. -/
def applyChange (c : PropertyChanges) (h : PlayerHandle) : PlayerHandle :=
  { h with
    playbackStatus := c.playbackStatus.getD h.playbackStatus
    metadata := c.metadata.getD h.metadata
    volume := c.volume.getD h.volume
    position := c.position.getD h.position }

/-- Modelled from the spec: the effective track of a handle is the value
cached under the key mpris:trackid, when present. -/
def effectiveTrack (h : PlayerHandle) : Option MetaValue :=
  lookupMeta h.metadata "mpris:trackid"

/-- Modelled from the spec: a promotion event occurs only when the change
is semantically meaningful: playback status transitions to Playing, or the
effective trackid (or, absent one, the full metadata map) differs from the
previously cached value. -/
def isPromotion (old new : PlayerHandle) : Bool :=
  (new.playbackStatus == .Playing && !(old.playbackStatus == .Playing)) ||
  (match effectiveTrack new with
   | some t => !(effectiveTrack old == some t)
   | none => !(old.metadata == new.metadata))

/-- Modelled from the spec: promotion moves the handle with the given
instance id to the front of the stack, keeping every other entry in its
relative order. -/
def moveToFront (i : String) (stack : List PlayerHandle) : List PlayerHandle :=
  stack.filter (fun h => h.instanceId == i) ++
    stack.filter (fun h => !(h.instanceId == i))

/-- Modelled from the spec: on_property_changed refreshes the cached
fields of the named handle, moves it to the front exactly on a promotion
event, and emits a change notification exactly when the externally visible
ordered list of instance ids changed; an idempotent re-set neither
reorders nor notifies. -/
def onPropertyChanged (i : String) (c : PropertyChanges)
    (stack : List PlayerHandle) : List PlayerHandle × Notification :=
  match stack.find? (fun h => h.instanceId == i) with
  | none => (stack, none)
  | some old =>
      let updated := stack.map (fun h => if h.instanceId == i then applyChange c h else h)
      let final := if isPromotion old (applyChange c old) then moveToFront i updated else updated
      (final, if snapshot final == snapshot stack then none else some (snapshot final))

/-- Modelled from the spec: shift rotates the front element of the stack
to the back; it fails on an empty stack. -/
def shift (stack : List PlayerHandle) : Option (List PlayerHandle) :=
  match stack with
  | [] => none
  | x :: xs => some (xs ++ [x])

/-- Modelled from the spec: unshift is the inverse rotation, moving the
back element to the front; it fails on an empty stack. -/
def unshift (stack : List PlayerHandle) : Option (List PlayerHandle) :=
  match stack.getLast? with
  | none => none
  | some x => some (x :: stack.dropLast)

/-- Modelled from the spec: the shift and unshift daemon commands exit
with code 0 on success and a non-zero code (1) on an empty stack. -/
def rotationExitCode (result : Option (List PlayerHandle)) : Nat :=
  match result with
  | some _ => 0
  | none => 1

/-- Modelled from the spec: a follow-mode consumer re-renders on every
change and emits a new line only if the rendered text differs from the
last emitted line. -/
def followEmit (render : List PlayerHandle → String) (lastLine : String)
    (stack : List PlayerHandle) : Option String :=
  let line := render stack
  if line == lastLine then none else some line

/-- Modelled from the spec: whether a name contains a dot, the separator
of a name plus instance disambiguator. -/
def hasDotChar (s : String) : Bool :=
  s.data.any (fun c => c == Char.ofNat 46)

/-- Modelled from the spec: the player name of an instance id, the part
before the first dot of a name plus optional disambiguator. -/
def baseName (s : String) : String :=
  String.mk (s.data.takeWhile (fun c => !(c == Char.ofNat 46)))

/-- Modelled from the spec: an instance-qualified pattern (one containing a
dot) matches only that exact instance; a bare name matches every instance
sharing that name. -/
def patternMatchesInstance (pat inst : String) : Bool :=
  if hasDotChar pat then pat == inst else baseName inst == pat

/-- Modelled from the spec: the wildcard pattern token. -/
def isAnyPattern (pat : String) : Bool :=
  pat == "%any"

/-- Modelled from the spec: a stack entry is matched by an explicit
pattern when some non-wildcard pattern of the selection spec matches
it. -/
def matchedByExplicit (spec : List String) (inst : String) : Bool :=
  spec.any (fun p => !(isAnyPattern p) && patternMatchesInstance p inst)

/-- Modelled from the spec: one pattern expands to the stack entries it
matches, in the order they currently appear in the stack; the wildcard
expands to the stack entries not matched by any other explicit pattern,
in their stack order. -/
def expandPattern (spec stack : List String) (pat : String) : List String :=
  if isAnyPattern pat then stack.filter (fun inst => !(matchedByExplicit spec inst))
  else stack.filter (patternMatchesInstance pat)

/-- Modelled from the spec: remove duplicates from a list keeping the
first occurrence of every element (auxiliary, carrying the set of elements
already seen). -/
def dedupFirstAux : List String → List String → List String
  | [], _ => []
  | x :: xs, seen =>
      if x ∈ seen then dedupFirstAux xs seen else x :: dedupFirstAux xs (x :: seen)

/-- Modelled from the spec: remove duplicates keeping the first
occurrence. -/
def dedupFirst (l : List String) : List String :=
  dedupFirstAux l []

/-- Modelled from the spec: the selection resolver: each pattern expands
in spec order, the result is the concatenation of the per-pattern
expansions with duplicates removed keeping the first occurrence; a pattern
naming no existing player contributes nothing. -/
def resolve (spec stack : List String) : List String :=
  dedupFirst (spec.flatMap (expandPattern spec stack))

/-- Modelled from the spec: without the all-players flag only the first
element of the resolved list is used; with it the full ordered list is
used. -/
def selectTargets (allPlayers : Bool) (spec stack : List String) : List String :=
  if allPlayers then resolve spec stack else (resolve spec stack).take 1

/-- Modelled from the spec: the two distinct dispatch error kinds. -/
inductive DispatchError
  | noPlayersFound
  | noPlayerCanHandleCommand
deriving DecidableEq

/-- Modelled from the spec: the distinct user-facing messages of the two
dispatch error kinds. -/
def errorMessage : DispatchError → String
  | .noPlayersFound => "No players found"
  | .noPlayerCanHandleCommand => "No player could handle this command"

/-- Modelled from the spec: an action command iterates the resolved
candidates in order and invokes the action on the first candidate whose
capability flags permit it; it fails with noPlayersFound on an empty
candidate list and with noPlayerCanHandleCommand when no candidate
accepts. -/
def dispatchAction (candidates : List PlayerHandle) (canDo : PlayerHandle → Bool) :
    Except DispatchError PlayerHandle :=
  match candidates with
  | [] => .error .noPlayersFound
  | _ :: _ =>
      match candidates.find? canDo with
      | some p => .ok p
      | none => .error .noPlayerCanHandleCommand

/-- Modelled from the spec: the observable outcome of one CLI invocation:
exit code, standard output and the message on the error channel. -/
structure CmdOutcome where
  exitCode : Nat
  stdout : String
  errMessage : String
deriving DecidableEq

/-- Modelled from the spec: the candidate handles of a resolved selection,
in resolved order. -/
def resolvedCandidates (spec : List String) (stack : List PlayerHandle) :
    List PlayerHandle :=
  (resolve spec (snapshot stack)).filterMap
    (fun i => stack.find? (fun h => h.instanceId == i))

/-- Modelled from the spec: an action command resolves the selection,
dispatches to the first capable candidate, and on failure exits with code
1, prints nothing on standard output and puts the error-kind message on
the error channel. -/
def runActionCommand (spec : List String) (stack : List PlayerHandle)
    (canDo : PlayerHandle → Bool) : CmdOutcome :=
  match dispatchAction (resolvedCandidates spec stack) canDo with
  | .ok _ => ⟨0, "", ""⟩
  | .error e => ⟨1, "", errorMessage e⟩

/-- Modelled from the spec: a query command renders the first resolved
candidate; with an empty candidate list it fails like an action command
with the noPlayersFound message, exit code 1 and empty standard
output. -/
def runQueryCommand (spec : List String) (stack : List PlayerHandle)
    (render : PlayerHandle → String) : CmdOutcome :=
  match resolvedCandidates spec stack with
  | [] => ⟨1, "", errorMessage .noPlayersFound⟩
  | c :: _ => ⟨0, render c, ""⟩

/-- Modelled from the spec: a format-engine value is a string or a
number. -/
inductive Value
  | str (s : String)
  | num (q : Rat)
deriving DecidableEq

/-- Modelled from the spec: the tokens of the expression sub-language of a
format block. -/
inductive Tok
  | num (q : Rat)
  | strLit (s : String)
  | ident (s : String)
  | lparen
  | rparen
  | comma
  | plus
  | minus
  | star
  | slash
deriving DecidableEq

/-- Modelled from the spec: identifier characters are alphanumerics, the
colon of a namespaced key and the underscore. -/
def isIdentChar (c : Char) : Bool :=
  c.isAlphanum || c == Char.ofNat 58 || c == Char.ofNat 95

/-- Modelled from the spec: split the longest run of decimal digits off
the front of the character stream. -/
def takeDigits : List Char → List Char × List Char
  | [] => ([], [])
  | c :: cs =>
      if c.isDigit then
        let p := takeDigits cs
        (c :: p.1, p.2)
      else ([], c :: cs)

/-- Modelled from the spec: split the longest run of identifier characters
off the front of the character stream. -/
def takeIdentChars : List Char → List Char × List Char
  | [] => ([], [])
  | c :: cs =>
      if isIdentChar c then
        let p := takeIdentChars cs
        (c :: p.1, p.2)
      else ([], c :: cs)

/-- Modelled from the spec: read the body of a double-quoted string
literal up to the closing quote; an unterminated literal is a parse
error. -/
def takeStrLit : List Char → Option (List Char × List Char)
  | [] => none
  | c :: cs =>
      if c == Char.ofNat 34 then some ([], cs)
      else
        match takeStrLit cs with
        | none => none
        | some p => some (c :: p.1, p.2)

/-- Modelled from the spec: the numeric value of a digit run. -/
def digitsToNat (ds : List Char) : Nat :=
  ds.foldl (fun a c => a * 10 + (c.toNat - 48)) 0

/-- Modelled from the spec: the rational value of an integer digit run and
a fractional digit run around a decimal point. -/
def numFromParts (ip fp : List Char) : Rat :=
  mkRat (digitsToNat ip * 10 ^ fp.length + digitsToNat fp) (10 ^ fp.length)

/-- Modelled from the spec: the single-character operator and punctuation
tokens. -/
def charTok (c : Char) : Option Tok :=
  if c == Char.ofNat 40 then some .lparen
  else if c == Char.ofNat 41 then some .rparen
  else if c == Char.ofNat 44 then some .comma
  else if c == Char.ofNat 43 then some .plus
  else if c == Char.ofNat 45 then some .minus
  else if c == Char.ofNat 42 then some .star
  else if c == Char.ofNat 47 then some .slash
  else none

/-- Modelled from the spec: the tokenizer of a format block, with
whitespace insignificant between tokens; fuel bounds the recursion and one
unit per consumed character always suffices. -/
def tokenizeAux : Nat → List Char → Option (List Tok)
  | 0, _ => none
  | _ + 1, [] => some []
  | fuel + 1, c :: cs =>
      if c == Char.ofNat 32 then tokenizeAux fuel cs
      else if c.isDigit then
        let p := takeDigits (c :: cs)
        let q :=
          if p.2.headD (Char.ofNat 0) == Char.ofNat 46 then
            let f := takeDigits p.2.tail
            (numFromParts p.1 f.1, f.2)
          else (numFromParts p.1 [], p.2)
        match tokenizeAux fuel q.2 with
        | some ts => some (Tok.num q.1 :: ts)
        | none => none
      else if c.isAlpha then
        let p := takeIdentChars (c :: cs)
        match tokenizeAux fuel p.2 with
        | some ts => some (Tok.ident (String.mk p.1) :: ts)
        | none => none
      else if c == Char.ofNat 34 then
        match takeStrLit cs with
        | none => none
        | some p =>
            match tokenizeAux fuel p.2 with
            | some ts => some (Tok.strLit (String.mk p.1) :: ts)
            | none => none
      else
        match charTok c with
        | none => none
        | some t =>
            match tokenizeAux fuel cs with
            | some ts => some (t :: ts)
            | none => none

/-- Modelled from the spec: tokenize a whole format block. -/
def tokenize (s : String) : Option (List Tok) :=
  tokenizeAux (s.length + 1) s.data

/-- Modelled from the spec: the binary operators of the arithmetic
sub-grammar. -/
inductive BinOp
  | add
  | sub
  | mul
  | div
deriving DecidableEq

/-- Modelled from the spec: the immutable parse tree of a format block:
literal, identifier, function call, binary operation and unary minus. -/
inductive FormatAST
  | literal (v : Value)
  | identifier (k : String)
  | call (name : String) (args : List FormatAST)
  | binaryOp (op : BinOp) (l r : FormatAST)
  | unaryMinus (e : FormatAST)

mutual

/-- Modelled from the spec: parse an expression at the lowest precedence
level, addition and subtraction; fuel bounds the recursion depth. -/
def parseExpr : Nat → List Tok → Option (FormatAST × List Tok)
  | 0, _ => none
  | fuel + 1, ts =>
      match parseTerm fuel ts with
      | none => none
      | some p => parseExprTail fuel p.1 p.2

/-- Modelled from the spec: left-associative chain of additive
operators. -/
def parseExprTail : Nat → FormatAST → List Tok → Option (FormatAST × List Tok)
  | 0, _, _ => none
  | fuel + 1, acc, Tok.plus :: ts =>
      match parseTerm fuel ts with
      | none => none
      | some p => parseExprTail fuel (.binaryOp .add acc p.1) p.2
  | fuel + 1, acc, Tok.minus :: ts =>
      match parseTerm fuel ts with
      | none => none
      | some p => parseExprTail fuel (.binaryOp .sub acc p.1) p.2
  | _ + 1, acc, ts => some (acc, ts)

/-- Modelled from the spec: parse a term at the multiplicative precedence
level. -/
def parseTerm : Nat → List Tok → Option (FormatAST × List Tok)
  | 0, _ => none
  | fuel + 1, ts =>
      match parseUnary fuel false ts with
      | none => none
      | some p => parseTermTail fuel p.1 p.2

/-- Modelled from the spec: left-associative chain of multiplicative
operators. -/
def parseTermTail : Nat → FormatAST → List Tok → Option (FormatAST × List Tok)
  | 0, _, _ => none
  | fuel + 1, acc, Tok.star :: ts =>
      match parseUnary fuel false ts with
      | none => none
      | some p => parseTermTail fuel (.binaryOp .mul acc p.1) p.2
  | fuel + 1, acc, Tok.slash :: ts =>
      match parseUnary fuel false ts with
      | none => none
      | some p => parseTermTail fuel (.binaryOp .div acc p.1) p.2
  | _ + 1, acc, ts => some (acc, ts)

/-- Modelled from the spec: fold an arbitrarily long chain of leading
unary plus and minus tokens to a single sign (plus is a no-op, minus flips
the carried sign) before applying the primary value. -/
def parseUnary : Nat → Bool → List Tok → Option (FormatAST × List Tok)
  | 0, _, _ => none
  | fuel + 1, neg, Tok.minus :: ts => parseUnary fuel (!neg) ts
  | fuel + 1, neg, Tok.plus :: ts => parseUnary fuel neg ts
  | fuel + 1, neg, ts =>
      match parsePrimary fuel ts with
      | none => none
      | some p => some (if neg then (.unaryMinus p.1, p.2) else p)

/-- Modelled from the spec: parse a primary: a literal, an identifier, a
function call or a parenthesized expression. -/
def parsePrimary : Nat → List Tok → Option (FormatAST × List Tok)
  | 0, _ => none
  | _ + 1, Tok.num q :: ts => some (.literal (.num q), ts)
  | _ + 1, Tok.strLit s :: ts => some (.literal (.str s), ts)
  | fuel + 1, Tok.ident f :: Tok.lparen :: ts =>
      match parseArgs fuel ts with
      | none => none
      | some p => some (.call f p.1, p.2)
  | _ + 1, Tok.ident k :: ts => some (.identifier k, ts)
  | fuel + 1, Tok.lparen :: ts =>
      match parseExpr fuel ts with
      | some (e, Tok.rparen :: r) => some (e, r)
      | _ => none
  | _ + 1, _ => none

/-- Modelled from the spec: parse the comma-separated argument list of a
function call up to the closing parenthesis. -/
def parseArgs : Nat → List Tok → Option (List FormatAST × List Tok)
  | 0, _ => none
  | _ + 1, Tok.rparen :: ts => some ([], ts)
  | fuel + 1, ts =>
      match parseExpr fuel ts with
      | none => none
      | some p => parseArgsTail fuel p.1 p.2

/-- Modelled from the spec: continuation of the argument list after one
parsed argument. -/
def parseArgsTail : Nat → FormatAST → List Tok → Option (List FormatAST × List Tok)
  | 0, _, _ => none
  | fuel + 1, e, Tok.comma :: ts =>
      match parseExpr fuel ts with
      | none => none
      | some p =>
          match parseArgsTail fuel p.1 p.2 with
          | none => none
          | some q => some (e :: q.1, q.2)
  | _ + 1, e, Tok.rparen :: ts => some ([e], ts)
  | _ + 1, _, _ => none

end

/-- Modelled from the spec: the template-evaluation error kinds; a
malformed or unterminated expression is a parse error, and every error is
fatal to the invocation. -/
inductive FormatError
  | parseError
  | unknownFunction
  | arityError
  | invalidEmojiArgument
deriving DecidableEq

/-- Modelled from the spec: the fractional digits of a long division,
stopping at a zero remainder so that no trailing zeros are forced. -/
def fracDigitsAux : Nat → Nat → Nat → List Char
  | _, _, 0 => []
  | r, d, k + 1 =>
      if r == 0 then []
      else Char.ofNat (48 + (r * 10) / d) :: fracDigitsAux ((r * 10) % d) d k

/-- Modelled from the spec: standard decimal formatting of a number, with
no forced trailing zeros; positions are integer microseconds, so six
fractional digits always suffice for the values the engine prints. -/
def renderNum (q : Rat) : String :=
  if q.den == 1 then toString q.num
  else
    (if q.num < 0 then "-" else "") ++ toString (q.num.natAbs / q.den) ++ "." ++
      String.mk (fracDigitsAux (q.num.natAbs % q.den) q.den 6)

/-- Modelled from the spec: the stringified form of a value, used for
function arguments and for block output. -/
def stringify : Value → String
  | .str s => s
  | .num q => renderNum q

/-- Modelled from the spec: a value is empty (falsy) when it is the empty
string; an absent identifier already evaluated to the empty string. -/
def valueEmpty : Value → Bool
  | .str s => s == ""
  | .num _ => false

/-- Modelled from the spec: ASCII lowercase of one character. -/
def charToLower (c : Char) : Char :=
  if 65 ≤ c.toNat && c.toNat ≤ 90 then Char.ofNat (c.toNat + 32) else c

/-- Modelled from the spec: ASCII uppercase of one character. -/
def charToUpper (c : Char) : Char :=
  if 97 ≤ c.toNat && c.toNat ≤ 122 then Char.ofNat (c.toNat - 32) else c

/-- Modelled from the spec: lowercase of a stringified argument. -/
def strToLower (s : String) : String :=
  String.mk (s.data.map charToLower)

/-- Modelled from the spec: uppercase of a stringified argument. -/
def strToUpper (s : String) : String :=
  String.mk (s.data.map charToUpper)

/-- Modelled from the spec: escape the markup characters ampersand,
less-than and greater-than. -/
def escapeChar (c : Char) : List Char :=
  if c == Char.ofNat 38 then "&amp;".data
  else if c == Char.ofNat 60 then "&lt;".data
  else if c == Char.ofNat 62 then "&gt;".data
  else [c]

/-- Modelled from the spec: markup_escape over a whole string. -/
def markupEscape (s : String) : String :=
  String.mk (s.data.flatMap escapeChar)

/-- Modelled from the spec: the fixed play glyph. -/
def playGlyph : String := "▶️"

/-- Modelled from the spec: the fixed pause glyph. -/
def pauseGlyph : String := "⏸️"

/-- Modelled from the spec: the fixed stop glyph. -/
def stopGlyph : String := "⏹️"

/-- Modelled from the spec: the mute-volume glyph. -/
def muteGlyph : String := "🔈"

/-- Modelled from the spec: the medium-volume glyph. -/
def mediumGlyph : String := "🔉"

/-- Modelled from the spec: the high-volume glyph. -/
def highGlyph : String := "🔊"

/-- Modelled from the spec: emoji maps a closed enumeration of inputs to a
glyph: the three playback statuses to the play, pause and stop glyphs, and
a volume in the closed unit interval by threshold, zero to mute, up to one
half to medium, above one half to high; any other value is invalid. The
threshold comparisons are written on the numerator and positive
denominator of the volume. -/
def emojiFn : Value → Except FormatError Value
  | .str s =>
      if s == "Playing" then .ok (.str playGlyph)
      else if s == "Paused" then .ok (.str pauseGlyph)
      else if s == "Stopped" then .ok (.str stopGlyph)
      else .error .invalidEmojiArgument
  | .num q =>
      if q.num < 0 then .error .invalidEmojiArgument
      else if (q.den : Int) < q.num then .error .invalidEmojiArgument
      else if q.num == 0 then .ok (.str muteGlyph)
      else if 2 * q.num ≤ (q.den : Int) then .ok (.str mediumGlyph)
      else .ok (.str highGlyph)

/-- Modelled from the spec: the built-in functions applied to the already
evaluated values of their arguments; a wrong argument count is an arity
error and an unknown name is an unknown-function error. -/
def applyFunction (f : String) (args : List Value) : Except FormatError Value :=
  if f == "lc" then
    match args with
    | [v] => .ok (.str (strToLower (stringify v)))
    | _ => .error .arityError
  else if f == "uc" then
    match args with
    | [v] => .ok (.str (strToUpper (stringify v)))
    | _ => .error .arityError
  else if f == "default" then
    match args with
    | [a, b] => .ok (if valueEmpty a then b else a)
    | _ => .error .arityError
  else if f == "markup_escape" then
    match args with
    | [v] => .ok (.str (markupEscape (stringify v)))
    | _ => .error .arityError
  else if f == "emoji" then
    match args with
    | [v] => emojiFn v
    | _ => .error .arityError
  else .error .unknownFunction

/-- Modelled from the spec: the read-only evaluation context mapping
identifier names to values, built fresh from one player handle per
render. -/
abbrev EvalContext := List (String × Value)

/-- Modelled from the spec: identifier lookup in the evaluation
context. -/
def lookupCtx (ctx : EvalContext) (k : String) : Option Value :=
  (ctx.find? (fun p => p.1 == k)).map (fun p => p.2)

/-- Modelled from the spec: rational addition, written on numerators and
denominators through the normalizing constructor so that it evaluates by
reduction; proved equal to the standard addition below. -/
def ratAdd (a b : Rat) : Rat :=
  mkRat (a.num * b.den + b.num * a.den) (a.den * b.den)

/-- Modelled from the spec: rational multiplication through the
normalizing constructor. -/
def ratMul (a b : Rat) : Rat :=
  mkRat (a.num * b.num) (a.den * b.den)

/-- Modelled from the spec: rational negation through the normalizing
constructor. -/
def ratNeg (a : Rat) : Rat :=
  mkRat (-a.num) a.den

/-- Modelled from the spec: rational subtraction as addition of the
negation. -/
def ratSub (a b : Rat) : Rat :=
  ratAdd a (ratNeg b)

/-- Modelled from the spec: rational division through the normalizing
constructor, with the sign moved to the numerator. -/
def ratDiv (a b : Rat) : Rat :=
  if b.num < 0 then mkRat (-(a.num * b.den)) (a.den * b.num.natAbs)
  else mkRat (a.num * b.den) (a.den * b.num.natAbs)

/-- Modelled from the spec: a binary arithmetic operation on two numeric
values; a non-numeric operand of an arithmetic operator is a malformed
expression. -/
def evalBinOp (op : BinOp) (a b : Value) : Except FormatError Value :=
  match a, b with
  | .num x, .num y =>
      .ok (.num (match op with
        | .add => ratAdd x y
        | .sub => ratSub x y
        | .mul => ratMul x y
        | .div => ratDiv x y))
  | _, _ => .error .parseError

mutual

/-- Modelled from the spec: evaluate a parse tree against the context: an
identifier absent from the context evaluates to the empty string rather
than an error, function arguments are evaluated left to right, and unary
minus negates a numeric operand. -/
def evalAST (ctx : EvalContext) : FormatAST → Except FormatError Value
  | .literal v => .ok v
  | .identifier k => .ok ((lookupCtx ctx k).getD (.str ""))
  | .call f args =>
      match evalArgs ctx args with
      | .error e => .error e
      | .ok vs => applyFunction f vs
  | .binaryOp op a b =>
      match evalAST ctx a with
      | .error e => .error e
      | .ok va =>
          match evalAST ctx b with
          | .error e => .error e
          | .ok vb => evalBinOp op va vb
  | .unaryMinus a =>
      match evalAST ctx a with
      | .error e => .error e
      | .ok (.num q) => .ok (.num (ratNeg q))
      | .ok (.str _) => .error .parseError

/-- Modelled from the spec: evaluate an argument list left to right,
stopping at the first error. -/
def evalArgs (ctx : EvalContext) : List FormatAST → Except FormatError (List Value)
  | [] => .ok []
  | e :: es =>
      match evalAST ctx e with
      | .error err => .error err
      | .ok v =>
          match evalArgs ctx es with
          | .error err => .error err
          | .ok vs => .ok (v :: vs)

end

/-- Modelled from the spec: parse and evaluate a token list as one whole
expression; unconsumed trailing tokens make the expression malformed. -/
def evalTokens (ctx : EvalContext) (ts : List Tok) : Except FormatError Value :=
  match parseExpr (5 * ts.length + 10) ts with
  | some (e, []) => evalAST ctx e
  | _ => .error .parseError

/-- Modelled from the spec: tokenize, parse and evaluate one format
block. -/
def evalBlock (src : String) (ctx : EvalContext) : Except FormatError Value :=
  match tokenize src with
  | none => .error .parseError
  | some ts => evalTokens ctx ts

/-- Modelled from the spec: the rendered text of one format block is the
stringified value. -/
def renderBlock (src : String) (ctx : EvalContext) : Except FormatError String :=
  match evalBlock src ctx with
  | .error e => .error e
  | .ok v => .ok (stringify v)

/-- Modelled from the spec: a command rendering a single-block format
template: a template error is fatal, the command exits with a non-zero
code and produces no output on the success channel. -/
def runFormatQuery (src : String) (ctx : EvalContext) : CmdOutcome :=
  match renderBlock src ctx with
  | .ok out => ⟨0, out, ""⟩
  | .error _ => ⟨1, "", "Could not execute command: Could not parse format string"⟩

/-- Modelled from the spec: the position cached on a handle is an integer
number of microseconds; the position query converts it to seconds. -/
def positionSeconds (p : Int) : Rat :=
  mkRat p 1000000

/-- Modelled from the spec: the position query prints the position in
seconds as a decimal number, not the raw microsecond value. -/
def positionQueryOutput (h : PlayerHandle) : String :=
  renderNum (positionSeconds h.position)

/-- Test fixture: the selection spec of the concrete selection scenario of
the suite. -/
def specT : List String :=
  ["selection2", "selection1", "selection3"]

/-- Test fixture: a stack snapshot with two instances of selection1 and an
instance-qualified selection6. -/
def stackT : List String :=
  ["selection1", "selection1.i_123", "selection2", "selection3", "selection6.i_2"]

/-- Test fixture: a first player handle. -/
def handleA : PlayerHandle :=
  ⟨"player1", .Stopped, [], 1, 0⟩

/-- Test fixture: a second player handle. -/
def handleB : PlayerHandle :=
  ⟨"player2", .Stopped, [], 1, 0⟩

/-- Test fixture: a metadata change carrying a fresh trackid, a meaningful
change that fires a promotion event. -/
def trackChange : PropertyChanges :=
  ⟨none, some [("mpris:trackid", MetaValue.str "/1")], none, none⟩

/-- Test fixture: a handle with cached metadata, used for the idempotent
re-set scenario. -/
def handleC : PlayerHandle :=
  ⟨"player1", .Playing,
    [("mpris:trackid", MetaValue.str "/1"), ("xesam:title", MetaValue.str "title1")], 1, 0⟩

/-- Test fixture: a re-emission of exactly the values already cached on
handleC. -/
def idemChange : PropertyChanges :=
  ⟨some .Playing,
    some [("mpris:trackid", MetaValue.str "/1"), ("xesam:title", MetaValue.str "title1")],
    some 1, some 0⟩

/-- Test fixture: a follow-mode renderer printing the head instance id. -/
def renderHead : List PlayerHandle → String :=
  fun s => (snapshot s).headD ""

/-- A numerator is the value times the denominator, the basic bridge
between the normalized field representation and rational arithmetic. -/
theorem num_eq_mul_den (a : Rat) : (a.num : Rat) = a * a.den := by
  have ha : ((a.den : Rat)) ≠ 0 := by exact_mod_cast a.den_nz
  rw [← div_eq_iff ha]
  exact Rat.num_div_den a

/-- The field-level addition agrees with rational addition. -/
theorem ratAdd_eq (a b : Rat) : ratAdd a b = a + b := by
  unfold ratAdd
  rw [Rat.mkRat_eq_div]
  have ha : ((a.den : Rat)) ≠ 0 := by exact_mod_cast a.den_nz
  have hb : ((b.den : Rat)) ≠ 0 := by exact_mod_cast b.den_nz
  field_simp
  rw [num_eq_mul_den a, num_eq_mul_den b]
  ring

/-- The field-level multiplication agrees with rational multiplication. -/
theorem ratMul_eq (a b : Rat) : ratMul a b = a * b := by
  unfold ratMul
  rw [Rat.mkRat_eq_div]
  have ha : ((a.den : Rat)) ≠ 0 := by exact_mod_cast a.den_nz
  have hb : ((b.den : Rat)) ≠ 0 := by exact_mod_cast b.den_nz
  field_simp
  rw [num_eq_mul_den a, num_eq_mul_den b]
  ring

/-- The field-level negation agrees with rational negation. -/
theorem ratNeg_eq (a : Rat) : ratNeg a = -a := by
  unfold ratNeg
  rw [Rat.mkRat_eq_div]
  have ha : ((a.den : Rat)) ≠ 0 := by exact_mod_cast a.den_nz
  push_cast
  rw [num_eq_mul_den a]
  field_simp

/-- The field-level subtraction agrees with rational subtraction. -/
theorem ratSub_eq (a b : Rat) : ratSub a b = a - b := by
  unfold ratSub
  rw [ratAdd_eq, ratNeg_eq, sub_eq_add_neg]

/-- The field-level division agrees with rational division. -/
theorem ratDiv_eq (a b : Rat) : ratDiv a b = a / b := by
  unfold ratDiv
  have ha : ((a.den : Rat)) ≠ 0 := by exact_mod_cast a.den_nz
  rcases lt_trichotomy b.num 0 with h | h | h
  · have hb0 : b ≠ 0 := by
      intro hb
      rw [hb] at h
      simp at h
    have hbn : ((b.num : Rat)) ≠ 0 := by exact_mod_cast h.ne
    have habs : ((b.num.natAbs : Rat)) = -(b.num : Rat) := by
      rw_mod_cast [Int.cast_natAbs]
      simp [abs_of_neg (show (b.num : Rat) < 0 by exact_mod_cast h)]
    rw [if_pos h, Rat.mkRat_eq_div]
    push_cast
    rw [habs]
    rw [div_eq_div_iff (mul_ne_zero ha (neg_ne_zero.mpr hbn)) hb0]
    rw [num_eq_mul_den a, num_eq_mul_den b]
    ring
  · have hb0 : b = 0 := Rat.num_eq_zero.mp h
    rw [if_neg (by omega), h]
    simp [hb0, Rat.mkRat_eq_div]
  · have hb0 : b ≠ 0 := by
      intro hb
      rw [hb] at h
      simp at h
    have hbn : ((b.num : Rat)) ≠ 0 := by exact_mod_cast h.ne.symm
    have habs : ((b.num.natAbs : Rat)) = (b.num : Rat) := by
      rw_mod_cast [Int.cast_natAbs]
      simp [abs_of_pos (show (0 : Rat) < (b.num : Rat) by exact_mod_cast h)]
    rw [if_neg (by omega), Rat.mkRat_eq_div]
    push_cast
    rw [habs]
    rw [div_eq_div_iff (mul_ne_zero ha hbn) hb0]
    rw [num_eq_mul_den a, num_eq_mul_den b]
    ring

/-- Refreshing cached fields never changes the identity of a handle. -/
theorem applyChange_instanceId (c : PropertyChanges) (h : PlayerHandle) :
    (applyChange c h).instanceId = h.instanceId := rfl

/-- A change that leaves the handle identical is never a promotion
event. -/
theorem isPromotion_self (h : PlayerHandle) : isPromotion h h = false := by
  unfold isPromotion
  cases ht : effectiveTrack h <;> simp [ht, Bool.and_comm]

/-- A pattern expands to nothing against the empty stack. -/
theorem expandPattern_nil (spec : List String) (pat : String) :
    expandPattern spec [] pat = [] := by
  unfold expandPattern
  cases isAnyPattern pat <;> simp

/-- Resolution against the empty stack is empty for every selection
spec. -/
theorem resolve_nil (spec : List String) : resolve spec [] = [] := by
  unfold resolve
  have hflat : spec.flatMap (expandPattern spec []) = [] := by
    induction spec with
    | nil => rfl
    | cons p ps ih => simp [List.flatMap_cons, expandPattern_nil, ih]
  rw [hflat]
  rfl

/-- With an empty registry there are no resolved candidates for any
selection spec. -/
theorem resolvedCandidates_nil (spec : List String) :
    resolvedCandidates spec [] = [] := by
  unfold resolvedCandidates
  rw [show snapshot [] = [] from rfl, resolve_nil]
  rfl

/-- String boolean equality is symmetric. -/
theorem beq_comm_str (a b : String) : (a == b) = (b == a) := by
  by_cases h : a = b
  · subst h
    rfl
  · rw [beq_eq_false_iff_ne.mpr h, beq_eq_false_iff_ne.mpr (Ne.symm h)]

/-- Membership in the first-occurrence deduplication: an element survives
exactly when it occurs in the list and is not among the already-seen
elements. -/
theorem mem_dedupFirstAux (l : List String) : ∀ (seen : List String) (x : String),
    x ∈ dedupFirstAux l seen ↔ x ∈ l ∧ x ∉ seen := by
  induction l with
  | nil =>
      intro seen x
      simp [dedupFirstAux]
  | cons y ys ih =>
      intro seen x
      unfold dedupFirstAux
      by_cases hy : y ∈ seen
      · rw [if_pos hy, ih]
        constructor
        · rintro ⟨hxys, hxs⟩
          exact ⟨List.mem_cons_of_mem _ hxys, hxs⟩
        · rintro ⟨hxyys, hxs⟩
          rcases List.mem_cons.mp hxyys with rfl | hxys
          · exact absurd hy hxs
          · exact ⟨hxys, hxs⟩
      · rw [if_neg hy]
        constructor
        · intro hx
          rcases List.mem_cons.mp hx with rfl | hx2
          · exact ⟨List.mem_cons_self _ _, hy⟩
          · rw [ih] at hx2
            obtain ⟨h1, h2⟩ := hx2
            refine ⟨List.mem_cons_of_mem _ h1, ?_⟩
            intro hxs
            exact h2 (List.mem_cons_of_mem _ hxs)
        · rintro ⟨hxyys, hxs⟩
          rcases List.mem_cons.mp hxyys with rfl | hxys
          · exact List.mem_cons_self _ _
          · by_cases hxy : x = y
            · subst hxy
              exact List.mem_cons_self _ _
            · refine List.mem_cons_of_mem _ ?_
              rw [ih]
              refine ⟨hxys, ?_⟩
              intro hmem
              rcases List.mem_cons.mp hmem with rfl | h2
              · exact hxy rfl
              · exact hxs h2

/-- The first-occurrence deduplication produces a duplicate-free list. -/
theorem nodup_dedupFirstAux (l : List String) : ∀ (seen : List String),
    (dedupFirstAux l seen).Nodup := by
  induction l with
  | nil =>
      intro seen
      simp [dedupFirstAux]
  | cons y ys ih =>
      intro seen
      unfold dedupFirstAux
      by_cases hy : y ∈ seen
      · rw [if_pos hy]
        exact ih seen
      · rw [if_neg hy]
        refine List.nodup_cons.mpr ⟨?_, ih (y :: seen)⟩
        intro hmem
        rw [mem_dedupFirstAux] at hmem
        exact hmem.2 (List.mem_cons_self _ _)

/-- Deduplication keeps exactly the elements of the list. -/
theorem mem_dedupFirst (l : List String) (x : String) :
    x ∈ dedupFirst l ↔ x ∈ l := by
  unfold dedupFirst
  rw [mem_dedupFirstAux]
  simp

/-- Deduplication yields a duplicate-free list. -/
theorem nodup_dedupFirst (l : List String) : (dedupFirst l).Nodup :=
  nodup_dedupFirstAux l []

/-- C1: the resolver expands each pattern in spec order against the stack
snapshot: an instance-qualified pattern (one containing a dot) matches
only that exact instance, a bare name expands to every instance sharing
that name in the order they appear in the stack, a pattern matching no
existing player contributes nothing, the result is the concatenation of
the per-pattern expansions in pattern order with duplicates removed
keeping the first occurrence, and without the all-players flag only the
first element of the result is used. -/
theorem resolve_pattern_expansion (spec stack : List String) (pat : String) :
    (hasDotChar pat = true →
      expandPattern spec stack pat = stack.filter (fun i => i == pat)) ∧
    (isAnyPattern pat = false → hasDotChar pat = false →
      expandPattern spec stack pat = stack.filter (fun i => baseName i == pat)) ∧
    (isAnyPattern pat = false → (∀ i ∈ stack, patternMatchesInstance pat i = false) →
      expandPattern spec stack pat = []) ∧
    resolve spec stack = dedupFirst (spec.flatMap (expandPattern spec stack)) ∧
    (resolve spec stack).Nodup ∧
    (∀ i, i ∈ resolve spec stack ↔ i ∈ spec.flatMap (expandPattern spec stack)) ∧
    selectTargets false spec stack = (resolve spec stack).take 1 := by
  refine ⟨?_, ?_, ?_, rfl, nodup_dedupFirst _, ?_, ?_⟩
  · intro hdot
    have hany : isAnyPattern pat = false := by
      unfold isAnyPattern
      rw [beq_eq_false_iff_ne]
      intro heq
      subst heq
      exact absurd hdot (by decide)
    unfold expandPattern
    rw [hany]
    simp only [Bool.false_eq_true, if_false]
    refine List.filter_congr ?_
    intro i _
    unfold patternMatchesInstance
    rw [if_pos hdot]
    exact beq_comm_str pat i
  · intro hany hdot
    unfold expandPattern
    rw [hany]
    simp only [Bool.false_eq_true, if_false]
    refine List.filter_congr ?_
    intro i _
    unfold patternMatchesInstance
    rw [if_neg (by rw [hdot]; exact Bool.false_ne_true)]
  · intro hany hnone
    unfold expandPattern
    rw [hany]
    simp only [Bool.false_eq_true, if_false]
    exact List.filter_eq_nil_iff.mpr (fun i hi => by rw [hnone i hi]; exact Bool.false_ne_true)
  · intro i
    exact mem_dedupFirst _ i
  · rfl

/-- C1 witness: the resolver theorem instantiated on the concrete
selection scenario of the suite: the instance-qualified pattern picks
exactly its instance, the bare name selection1 expands to both its
instances in stack order, the non-existent selection4 contributes
nothing, and the full resolution of the spec follows. -/
theorem resolve_pattern_expansion_witness :
    expandPattern specT stackT "selection1.i_123" = ["selection1.i_123"] ∧
    expandPattern specT stackT "selection1" = ["selection1", "selection1.i_123"] ∧
    expandPattern specT stackT "selection4" = [] ∧
    resolve specT stackT = ["selection2", "selection1", "selection1.i_123", "selection3"] ∧
    selectTargets false specT stackT = ["selection2"] :=
  ⟨((resolve_pattern_expansion specT stackT "selection1.i_123").1 (by decide)).trans
      (by decide),
    (((resolve_pattern_expansion specT stackT "selection1").2.1 (by decide)
      (by decide)).trans (by decide)),
    ((resolve_pattern_expansion specT stackT "selection4").2.2.1 (by decide)
      (by decide)),
    by decide, by decide⟩

/-- The wildcard expansion of a selection spec, the stack entries matched
by no explicit pattern in their stack order (abbreviation used by the
wildcard theorem). -/
theorem expandPattern_any (spec stack : List String) :
    expandPattern spec stack "%any" =
      stack.filter (fun i => !(matchedByExplicit spec i)) := rfl

/-- C4: the wildcard expands, at the position it occupies in the pattern
list, to exactly the stack entries not matched by any explicit pattern of
the spec, in their stack order (a sublist of the stack); the resolved list
around it is the concatenation of the expansions of the patterns before
it, the wildcard expansion, and the expansions of the patterns after it,
deduplicated keeping first occurrences, so the wildcard position controls
the priority of the unnamed players. -/
theorem any_wildcard_complement (spec stack pre post : List String) :
    (∀ i, i ∈ expandPattern spec stack "%any" ↔
      i ∈ stack ∧ matchedByExplicit spec i = false) ∧
    (expandPattern spec stack "%any").Sublist stack ∧
    (spec = pre ++ "%any" :: post →
      resolve spec stack =
        dedupFirst (pre.flatMap (expandPattern spec stack) ++
          (expandPattern spec stack "%any" ++
            post.flatMap (expandPattern spec stack)))) := by
  refine ⟨?_, ?_, ?_⟩
  · intro i
    rw [expandPattern_any, List.mem_filter]
    simp
  · rw [expandPattern_any]
    exact List.filter_sublist _
  · intro hspec
    unfold resolve
    rw [hspec, List.flatMap_append, List.flatMap_cons]

/-- C4 witness: the wildcard theorem instantiated on the concrete scenario
with spec selection6, wildcard, selection2: the wildcard expands to the
unnamed players in stack order, and the full resolution puts the
selection6 instance first and selection2 last, with the wildcard position
controlling the priority of the unnamed players. -/
theorem any_wildcard_complement_witness :
    expandPattern ["selection6", "%any", "selection2"] stackT "%any" =
      ["selection1", "selection1.i_123", "selection3"] ∧
    resolve ["selection6", "%any", "selection2"] stackT =
      dedupFirst (["selection6"].flatMap
          (expandPattern ["selection6", "%any", "selection2"] stackT) ++
        (expandPattern ["selection6", "%any", "selection2"] stackT "%any" ++
          ["selection2"].flatMap
            (expandPattern ["selection6", "%any", "selection2"] stackT))) ∧
    resolve ["selection6", "%any", "selection2"] stackT =
      ["selection6.i_2", "selection1", "selection1.i_123", "selection3", "selection2"] ∧
    resolve ["selection1", "%any"] stackT =
      ["selection1", "selection1.i_123", "selection2", "selection3", "selection6.i_2"] ∧
    resolve ["%any", "selection1"] stackT =
      ["selection2", "selection3", "selection6.i_2", "selection1", "selection1.i_123"] :=
  ⟨by decide,
    (any_wildcard_complement ["selection6", "%any", "selection2"] stackT
      ["selection6"] ["selection2"]).2.2 rfl,
    by decide, by decide, by decide⟩

/-- C2: with players P1 then P2 appearing in that order the registry
snapshot is P2 before P1, because on_appear inserts the new handle at the
front of the stack; a subsequent meaningful metadata change on P1 (a
promotion event) moves it to the front, yielding snapshot P1 before P2 and
one change notification carrying the new ordered list. -/
theorem appear_then_promote (h1 h2 : PlayerHandle) (c : PropertyChanges)
    (hne : h1.instanceId ≠ h2.instanceId)
    (hpromo : isPromotion h1 (applyChange c h1) = true) :
    snapshot (onAppear h2 (onAppear h1 []).1).1 = [h2.instanceId, h1.instanceId] ∧
    (onPropertyChanged h1.instanceId c (onAppear h2 (onAppear h1 []).1).1).1 =
      [applyChange c h1, h2] ∧
    snapshot (onPropertyChanged h1.instanceId c (onAppear h2 (onAppear h1 []).1).1).1 =
      [h1.instanceId, h2.instanceId] ∧
    (onPropertyChanged h1.instanceId c (onAppear h2 (onAppear h1 []).1).1).2 =
      some [h1.instanceId, h2.instanceId] := by
  have hb21 : (h2.instanceId == h1.instanceId) = false :=
    beq_eq_false_iff_ne.mpr (Ne.symm hne)
  have hb11 : (h1.instanceId == h1.instanceId) = true := beq_self_eq_true _
  have hbl : (([h1.instanceId, h2.instanceId] : List String) ==
      [h2.instanceId, h1.instanceId]) = false := by
    rw [beq_eq_false_iff_ne]
    intro heq
    injection heq with hh _
    exact hne hh
  have hfind : List.find? (fun h => h.instanceId == h1.instanceId) [h2, h1] = some h1 := by
    simp [List.find?_cons, hb21, hb11]
  have hkey : onPropertyChanged h1.instanceId c [h2, h1] =
      ([applyChange c h1, h2], some [h1.instanceId, h2.instanceId]) := by
    unfold onPropertyChanged
    rw [hfind]
    simp only [List.map_cons, List.map_nil, hb21, hb11, Bool.false_eq_true, if_false,
      if_true, hpromo]
    unfold moveToFront snapshot
    simp only [List.filter_cons, List.filter_nil, applyChange_instanceId, hb21, hb11,
      Bool.false_eq_true, Bool.not_false, Bool.not_true, if_false, if_true,
      List.map_cons, List.map_nil, List.nil_append, List.singleton_append, hbl]
  have hstack : (onAppear h2 (onAppear h1 []).1).1 = [h2, h1] := rfl
  refine ⟨rfl, ?_, ?_, ?_⟩
  · rw [hstack, hkey]
  · rw [hstack, hkey]
    simp [snapshot, applyChange_instanceId]
  · rw [hstack, hkey]

/-- C2 witness: the appearance and promotion theorem instantiated on two
concrete handles and a concrete trackid change. -/
theorem appear_then_promote_witness :
    snapshot (onAppear handleB (onAppear handleA []).1).1 =
      [handleB.instanceId, handleA.instanceId] ∧
    (onPropertyChanged handleA.instanceId trackChange
      (onAppear handleB (onAppear handleA []).1).1).1 =
      [applyChange trackChange handleA, handleB] ∧
    snapshot (onPropertyChanged handleA.instanceId trackChange
      (onAppear handleB (onAppear handleA []).1).1).1 =
      [handleA.instanceId, handleB.instanceId] ∧
    (onPropertyChanged handleA.instanceId trackChange
      (onAppear handleB (onAppear handleA []).1).1).2 =
      some [handleA.instanceId, handleB.instanceId] :=
  appear_then_promote handleA handleB trackChange (by decide) (by decide)

/-- C3: re-emitting property values identical to the currently cached ones
is a no-op for every handle of the registry: the stack order is unchanged,
no ordering change notification is emitted, and a follow-mode consumer
whose last line came from the same stack emits no duplicate line. -/
theorem idempotent_reset_noop (i : String) (c : PropertyChanges)
    (stack : List PlayerHandle) (render : List PlayerHandle → String)
    (hid : ∀ h ∈ stack, h.instanceId = i → applyChange c h = h) :
    (onPropertyChanged i c stack).1 = stack ∧
    (onPropertyChanged i c stack).2 = none ∧
    followEmit render (render stack) (onPropertyChanged i c stack).1 = none := by
  have hmain : onPropertyChanged i c stack = (stack, none) := by
    unfold onPropertyChanged
    cases hfind : stack.find? (fun h => h.instanceId == i) with
    | none => rfl
    | some old =>
        have hold_mem : old ∈ stack := List.mem_of_find?_eq_some hfind
        have hp := List.find?_some hfind
        have hold_id : old.instanceId = i := beq_iff_eq.mp hp
        have hold_eq : applyChange c old = old := hid old hold_mem hold_id
        have hupd : stack.map
            (fun h => if h.instanceId == i then applyChange c h else h) = stack := by
          have hcong : ∀ h ∈ stack,
              (if h.instanceId == i then applyChange c h else h) = id h := by
            intro h hmem
            by_cases hcase : h.instanceId = i
            · rw [if_pos (beq_iff_eq.mpr hcase)]
              exact hid h hmem hcase
            · rw [if_neg (fun htrue => hcase (beq_iff_eq.mp htrue))]
              rfl
          rw [List.map_congr_left hcong, List.map_id]
        simp only [hupd, hold_eq, isPromotion_self, Bool.false_eq_true, if_false,
          beq_self_eq_true, if_true]
  refine ⟨by rw [hmain], by rw [hmain], ?_⟩
  rw [hmain]
  simp [followEmit]

/-- C3 witness: the idempotence theorem instantiated on a concrete
registry with one handle and a change that re-emits exactly the values it
already caches. -/
theorem idempotent_reset_noop_witness :
    (onPropertyChanged "player1" idemChange [handleC]).1 = [handleC] ∧
    (onPropertyChanged "player1" idemChange [handleC]).2 = none ∧
    followEmit renderHead (renderHead [handleC])
      (onPropertyChanged "player1" idemChange [handleC]).1 = none :=
  idempotent_reset_noop "player1" idemChange [handleC] renderHead (by decide)

/-- C5: shift rotates the front element of a non-empty stack to the back
so that the new front is the previous second element, unshift moves the
back element to the front, their composition restores the original order,
and on the empty stack both operations fail with exit code 1. -/
theorem shift_unshift_inverses (x y : PlayerHandle) (xs : List PlayerHandle) :
    shift (x :: xs) = some (xs ++ [x]) ∧
    shift (x :: y :: xs) = some (y :: (xs ++ [x])) ∧
    unshift (xs ++ [x]) = some (x :: xs) ∧
    (shift (x :: xs)).bind unshift = some (x :: xs) ∧
    shift ([] : List PlayerHandle) = none ∧
    unshift ([] : List PlayerHandle) = none ∧
    rotationExitCode (shift ([] : List PlayerHandle)) = 1 ∧
    rotationExitCode (unshift ([] : List PlayerHandle)) = 1 := by
  have hunshift : unshift (xs ++ [x]) = some (x :: xs) := by
    unfold unshift
    rw [List.getLast?_concat, List.dropLast_concat]
  refine ⟨rfl, rfl, hunshift, ?_, rfl, rfl, rfl, rfl⟩
  simp [shift, hunshift]

/-- C6: dispatch fails with noPlayersFound exactly when the candidate list
is empty and with the distinct noPlayerCanHandleCommand exactly when the
non-empty list contains no capable candidate; with zero players registered
every action or query command exits with code 1, prints nothing on
standard output and carries the no-players message. -/
theorem dispatch_error_kinds (cands : List PlayerHandle)
    (canDo : PlayerHandle → Bool) (spec : List String)
    (render : PlayerHandle → String) :
    (dispatchAction cands canDo = .error .noPlayersFound ↔ cands = []) ∧
    (dispatchAction cands canDo = .error .noPlayerCanHandleCommand ↔
      cands ≠ [] ∧ ∀ c ∈ cands, canDo c = false) ∧
    errorMessage .noPlayersFound ≠ errorMessage .noPlayerCanHandleCommand ∧
    runActionCommand spec [] canDo = ⟨1, "", "No players found"⟩ ∧
    runQueryCommand spec [] render = ⟨1, "", "No players found"⟩ := by
  refine ⟨?_, ?_, by decide, ?_, ?_⟩
  · cases cands with
    | nil => simp [dispatchAction]
    | cons c cs =>
        unfold dispatchAction
        cases hf : (c :: cs).find? canDo <;> simp [hf]
  · cases cands with
    | nil => simp [dispatchAction]
    | cons c cs =>
        unfold dispatchAction
        cases hf : (c :: cs).find? canDo with
        | none =>
            simp only [hf]
            rw [List.find?_eq_none] at hf
            simp only [Bool.not_eq_true] at hf
            simp only [ne_eq, reduceCtorEq, not_false_eq_true, true_and]
            constructor
            · intro _
              exact hf
            · intro _
              trivial
        | some p =>
            have hp := List.find?_some hf
            have hmem := List.mem_of_find?_eq_some hf
            simp only [hf]
            constructor
            · intro h
              exact Except.noConfusion h
            · rintro ⟨-, hall⟩
              rw [hall p hmem] at hp
              exact Bool.noConfusion hp
  · unfold runActionCommand
    rw [resolvedCandidates_nil]
    rfl
  · unfold runQueryCommand
    rw [resolvedCandidates_nil]
    rfl

/-- C5 witness: the rotation theorem instantiated on a concrete two-player
stack. -/
theorem shift_unshift_inverses_witness :
    shift [handleA, handleB] = some [handleB, handleA] ∧
    unshift [handleB, handleA] = some [handleA, handleB] ∧
    (shift [handleA, handleB]).bind unshift = some [handleA, handleB] :=
  ⟨(shift_unshift_inverses handleA handleB [handleB]).1,
    (shift_unshift_inverses handleA handleB [handleB]).2.2.1,
    (shift_unshift_inverses handleA handleB [handleB]).2.2.2.1⟩

/-- C6 witness: the dispatch theorem instantiated concretely: the empty
candidate list gives noPlayersFound, one incapable candidate gives
noPlayerCanHandleCommand, and with zero players a command exits 1 with the
no-players message and empty standard output. -/
theorem dispatch_error_kinds_witness :
    dispatchAction [] (fun _ => true) = .error .noPlayersFound ∧
    dispatchAction [handleA] (fun _ => false) = .error .noPlayerCanHandleCommand ∧
    runActionCommand ["%any"] [] (fun _ => true) = ⟨1, "", "No players found"⟩ :=
  ⟨(dispatch_error_kinds [] (fun _ => true) ["%any"] (fun _ => "")).1.mpr rfl,
    (dispatch_error_kinds [handleA] (fun _ => false) ["%any"] (fun _ => "")).2.1.mpr
      ⟨List.cons_ne_nil _ _, fun _ _ => rfl⟩,
    (dispatch_error_kinds [] (fun _ => true) ["%any"] (fun _ => "")).2.2.2.1⟩

/-- Folding a chain of leading unary plus and minus tokens: the parser
carries one sign through the whole chain, so the chain acts as a single
sign given by the parity of the number of minus tokens. -/
theorem parseUnary_fold (signs : List Tok) :
    ∀ (rest : List Tok) (neg : Bool) (f : Nat),
      (∀ t ∈ signs, t = Tok.plus ∨ t = Tok.minus) →
      parseUnary (f + signs.length) neg (signs ++ rest) =
        parseUnary f (neg ^^ decide (signs.count Tok.minus % 2 = 1)) rest := by
  induction signs with
  | nil =>
      intro rest neg f _
      simp
  | cons t ts ih =>
      intro rest neg f hs
      rcases hs t (List.mem_cons_self _ _) with rfl | rfl
      · have hstep : parseUnary (f + (Tok.plus :: ts).length) neg
            ((Tok.plus :: ts) ++ rest) = parseUnary (f + ts.length) neg (ts ++ rest) := rfl
        rw [hstep, ih rest neg f (fun t ht => hs t (List.mem_cons_of_mem _ ht))]
        have hc : (Tok.plus :: ts).count Tok.minus = ts.count Tok.minus := by
          rw [List.count_cons]
          simp
        rw [hc]
      · have hstep : parseUnary (f + (Tok.minus :: ts).length) neg
            ((Tok.minus :: ts) ++ rest) = parseUnary (f + ts.length) (!neg) (ts ++ rest) := rfl
        rw [hstep, ih rest (!neg) f (fun t ht => hs t (List.mem_cons_of_mem _ ht))]
        have hc : (Tok.minus :: ts).count Tok.minus = ts.count Tok.minus + 1 := by
          rw [List.count_cons]
          simp
        rw [hc]
        rcases Nat.mod_two_eq_zero_or_one (ts.count Tok.minus) with h | h
        · have h1 : (ts.count Tok.minus + 1) % 2 = 1 := by omega
          rw [h, h1]
          simp
        · have h1 : (ts.count Tok.minus + 1) % 2 = 0 := by omega
          rw [h, h1]
          simp

/-- C7 counterexample: the expression 8+-+--++-4 contains seven leading
unary tokens with four minus signs before the final primary, so the folded
sign is plus and the block evaluates to 12, not to 4 as claimed. -/
theorem unary_chain_counterexample :
    evalBlock "8+-+--++-4" [] = .ok (.num 12) ∧
    evalBlock "8+-+--++-4" [] ≠ .ok (.num 4) := by
  refine ⟨rfl, ?_⟩
  intro h
  rw [show evalBlock "8+-+--++-4" [] = .ok (.num 12) from rfl] at h
  injection h with hv
  injection hv with hq
  exact absurd hq (by norm_num)

/-- C7 (amended): evaluation respects operator precedence, with addition
and subtraction below multiplication and division, unary minus below the
primaries and parentheses overriding; arbitrarily long chains of leading
unary plus and minus tokens fold to a single sign given by the parity of
the minus count before applying the primary value; in particular
8+-+--++-4 evaluates to 12 (its chain holds four minus signs) and
2 * (2 + 2) evaluates to 8. -/
theorem arithmetic_precedence_and_sign_folding (a b c : Rat) :
    (∀ (signs rest : List Tok) (neg : Bool) (f : Nat),
      (∀ t ∈ signs, t = Tok.plus ∨ t = Tok.minus) →
      parseUnary (f + signs.length) neg (signs ++ rest) =
        parseUnary f (neg ^^ decide (signs.count Tok.minus % 2 = 1)) rest) ∧
    evalTokens [] [Tok.num a, Tok.plus, Tok.num b, Tok.star, Tok.num c] =
      .ok (.num (a + b * c)) ∧
    evalTokens [] [Tok.num a, Tok.minus, Tok.num b, Tok.slash, Tok.num c] =
      .ok (.num (a - b / c)) ∧
    evalTokens [] [Tok.lparen, Tok.num a, Tok.plus, Tok.num b, Tok.rparen,
      Tok.star, Tok.num c] = .ok (.num ((a + b) * c)) ∧
    evalTokens [] [Tok.minus, Tok.num a, Tok.star, Tok.num b] =
      .ok (.num ((-a) * b)) ∧
    evalBlock "8+-+--++-4" [] = .ok (.num 12) ∧
    evalBlock "2 * (2 + 2)" [] = .ok (.num 8) := by
  refine ⟨fun signs rest neg f hs => parseUnary_fold signs rest neg f hs,
    ?_, ?_, ?_, ?_, rfl, rfl⟩
  · rw [show evalTokens [] [Tok.num a, Tok.plus, Tok.num b, Tok.star, Tok.num c] =
        .ok (.num (ratAdd a (ratMul b c))) from rfl, ratMul_eq, ratAdd_eq]
  · rw [show evalTokens [] [Tok.num a, Tok.minus, Tok.num b, Tok.slash, Tok.num c] =
        .ok (.num (ratSub a (ratDiv b c))) from rfl, ratDiv_eq, ratSub_eq]
  · rw [show evalTokens [] [Tok.lparen, Tok.num a, Tok.plus, Tok.num b, Tok.rparen,
        Tok.star, Tok.num c] = .ok (.num (ratMul (ratAdd a b) c)) from rfl,
      ratAdd_eq, ratMul_eq]
  · rw [show evalTokens [] [Tok.minus, Tok.num a, Tok.star, Tok.num b] =
        .ok (.num (ratMul (ratNeg a) b)) from rfl, ratNeg_eq, ratMul_eq]

/-- C7 witness: the precedence and folding theorem instantiated on
concrete numbers: 2 + 3 * 4 is 14, and a chain of minus, plus, minus
tokens folds to no sign change over a remaining stream. -/
theorem arithmetic_precedence_witness :
    evalTokens [] [Tok.num 2, Tok.plus, Tok.num 3, Tok.star, Tok.num 4] =
      .ok (.num 14) ∧
    parseUnary (0 + (3 : Nat)) false
        ([Tok.minus, Tok.plus, Tok.minus] ++ [Tok.num 5]) =
      parseUnary 0 (false ^^ decide
        (([Tok.minus, Tok.plus, Tok.minus] : List Tok).count Tok.minus % 2 = 1))
        [Tok.num 5] :=
  ⟨((arithmetic_precedence_and_sign_folding 2 3 4).2.1).trans (by norm_num),
    (arithmetic_precedence_and_sign_folding 0 0 0).1
      [Tok.minus, Tok.plus, Tok.minus] [Tok.num 5] false 0 (by decide)⟩

/-- C8: emoji maps only a closed set of inputs to glyphs: any string other
than the three playback statuses is an invalid argument, any argument
count other than one is an arity error, an evaluation error fails the
whole render so the command exits 1 with no output, and the closed
mappings send Playing, Paused and Stopped to the play, pause and stop
glyphs and the volumes 0, one half and 1 to the mute, medium and high
glyphs. -/
theorem emoji_closed_mapping (s : String) (args : List Value)
    (ctx : EvalContext) (src : String) :
    (s ≠ "Playing" → s ≠ "Paused" → s ≠ "Stopped" →
      applyFunction "emoji" [.str s] = .error .invalidEmojiArgument) ∧
    (args.length ≠ 1 → applyFunction "emoji" args = .error .arityError) ∧
    (∀ e : FormatError, renderBlock src ctx = .error e →
      runFormatQuery src ctx =
        ⟨1, "", "Could not execute command: Could not parse format string"⟩) ∧
    applyFunction "emoji" [.str "Playing"] = .ok (.str playGlyph) ∧
    applyFunction "emoji" [.str "Paused"] = .ok (.str pauseGlyph) ∧
    applyFunction "emoji" [.str "Stopped"] = .ok (.str stopGlyph) ∧
    applyFunction "emoji" [.num (mkRat 0 1)] = .ok (.str muteGlyph) ∧
    applyFunction "emoji" [.num (mkRat 1 2)] = .ok (.str mediumGlyph) ∧
    applyFunction "emoji" [.num (mkRat 1 1)] = .ok (.str highGlyph) ∧
    (runFormatQuery "emoji(\"hi\")" ctx).exitCode = 1 ∧
    (runFormatQuery "emoji(\"hi\")" ctx).stdout = "" := by
  refine ⟨?_, ?_, ?_, rfl, rfl, rfl, rfl, rfl, rfl, rfl, rfl⟩
  · intro h1 h2 h3
    rw [show applyFunction "emoji" [.str s] =
      (if s == "Playing" then Except.ok (Value.str playGlyph)
        else if s == "Paused" then Except.ok (Value.str pauseGlyph)
        else if s == "Stopped" then Except.ok (Value.str stopGlyph)
        else Except.error FormatError.invalidEmojiArgument) from rfl]
    rw [if_neg (fun ht => h1 (beq_iff_eq.mp ht)),
      if_neg (fun ht => h2 (beq_iff_eq.mp ht)),
      if_neg (fun ht => h3 (beq_iff_eq.mp ht))]
  · intro hlen
    cases args with
    | nil => rfl
    | cons a t =>
        cases t with
        | nil => exact absurd rfl hlen
        | cons b t2 => rfl
  · intro e he
    unfold runFormatQuery
    rw [he]

/-- C8 witness: the emoji theorem instantiated concretely: the
unrecognized string hi is invalid, two arguments are an arity error, and
an erroring render makes the command exit 1 with empty output. -/
theorem emoji_closed_mapping_witness :
    applyFunction "emoji" [.str "hi"] = .error .invalidEmojiArgument ∧
    applyFunction "emoji" [.str "Playing", .num (mkRat 1 1)] = .error .arityError ∧
    runFormatQuery "emoji(5, 7)" [] =
      ⟨1, "", "Could not execute command: Could not parse format string"⟩ :=
  ⟨(emoji_closed_mapping "hi" [] [] "").1 (by decide) (by decide) (by decide),
    (emoji_closed_mapping "" [.str "Playing", .num (mkRat 1 1)] [] "").2.1 (by decide),
    (emoji_closed_mapping "" [] [] "emoji(5, 7)").2.2.1 .arityError rfl⟩

/-- C9: an identifier absent from the evaluation context evaluates to the
empty string, a falsy value, rather than an error; default returns its
first argument unless that value is empty or absent, in which case it
returns the second. -/
theorem absent_identifier_and_default (ctx : EvalContext) (k : String)
    (a b : Value) :
    (lookupCtx ctx k = none → evalAST ctx (.identifier k) = .ok (.str "")) ∧
    (valueEmpty a = false → applyFunction "default" [a, b] = .ok a) ∧
    (valueEmpty a = true → applyFunction "default" [a, b] = .ok b) ∧
    (lookupCtx ctx k = none →
      evalAST ctx (.call "default" [.identifier k, .literal b]) = .ok b) := by
  have hd : applyFunction "default" [a, b] = .ok (if valueEmpty a then b else a) := rfl
  refine ⟨?_, ?_, ?_, ?_⟩
  · intro h
    rw [show evalAST ctx (.identifier k) = .ok ((lookupCtx ctx k).getD (.str "")) from rfl,
      h]
    rfl
  · intro h
    rw [hd, h]
    simp
  · intro h
    rw [hd, h]
    simp
  · intro h
    rw [show evalAST ctx (.call "default" [.identifier k, .literal b]) =
      applyFunction "default" [(lookupCtx ctx k).getD (.str ""), b] from rfl, h]
    rfl

/-- C9 witness: the identifier and default theorem instantiated on a
concrete context lacking the key xesam:missing. -/
theorem absent_identifier_and_default_witness :
    evalAST [("artist", Value.str "An Artist")] (.identifier "xesam:missing") =
      .ok (.str "") ∧
    applyFunction "default" [.str "ok", .str "not"] = .ok (.str "ok") ∧
    applyFunction "default" [.str "", .str "ok"] = .ok (.str "ok") ∧
    evalAST [("artist", Value.str "An Artist")]
      (.call "default" [.identifier "xesam:missing", .literal (.str "B")]) =
      .ok (.str "B") :=
  ⟨(absent_identifier_and_default [("artist", Value.str "An Artist")]
      "xesam:missing" (.str "") (.str "")).1 rfl,
    (absent_identifier_and_default [] "" (.str "ok") (.str "not")).2.1 rfl,
    (absent_identifier_and_default [] "" (.str "") (.str "ok")).2.2.1 rfl,
    (absent_identifier_and_default [("artist", Value.str "An Artist")]
      "xesam:missing" (.str "") (.str "B")).2.2.2 rfl⟩

/-- C10: the position query prints the cached integer-microsecond position
converted to seconds: the printed value times one million recovers the
microseconds, the concrete position 2500000 renders as 2.5 and not as the
raw microsecond count. -/
theorem position_seconds_conversion (h : PlayerHandle) :
    positionSeconds h.position * 1000000 = (h.position : Rat) ∧
    positionQueryOutput h = renderNum (positionSeconds h.position) ∧
    positionSeconds 2500000 = mkRat 5 2 ∧
    positionQueryOutput ⟨"queries", .Playing, [], 1, 2500000⟩ = "2.5" ∧
    positionQueryOutput ⟨"queries", .Playing, [], 1, 2500000⟩ ≠
      toString (2500000 : Int) := by
  refine ⟨?_, rfl, rfl, rfl, by decide⟩
  unfold positionSeconds
  rw [Rat.mkRat_eq_div]
  push_cast
  rw [div_mul_cancel₀]
  norm_num

/-- C10 witness: the position conversion theorem instantiated on a
concrete handle whose position is 2500000 microseconds. -/
theorem position_seconds_conversion_witness :
    positionSeconds (PlayerHandle.mk "queries" .Playing [] 1 2500000).position * 1000000 =
      ((PlayerHandle.mk "queries" .Playing [] 1 2500000).position : Rat) ∧
    positionQueryOutput (PlayerHandle.mk "queries" .Playing [] 1 2500000) = "2.5" :=
  ⟨(position_seconds_conversion (PlayerHandle.mk "queries" .Playing [] 1 2500000)).1,
    (position_seconds_conversion (PlayerHandle.mk "queries" .Playing [] 1 2500000)).2.2.2.1⟩

end Playerctl
